import Mathlib

/-!
Shallow embedding of `adaptivetrafficcontrolstraight.py` (adaptive 4-way
intersection simulation).  Pixel coordinates and simulated seconds are
modelled as rationals; the vehicle list is a Lean list.  Python object
identity is modelled by an `id : Nat` field assigned from a fresh counter
at spawn (the spec's data model gives each Vehicle an `id`); in every
reachable state these ids are pairwise distinct (proved below), so they
faithfully stand for object identity.  Rendering-only fields (`color`,
`size`, `route`) and all drawing code are omitted: they are never read by
the control logic.
-/

namespace ATC

/-! ### Configuration constants (module top of the source file) -/

def WINDOW_W : ℚ := 800
def WINDOW_H : ℚ := 800
def LANE_WIDTH : ℚ := 40
def CENTER_X : ℚ := 400
def CENTER_Y : ℚ := 400
def GREEN_DURATION : ℚ := 30

/-- First (shadowed) binding of `MIN_GREEN = 5`; the source immediately
rebinds it below, so the effective value is 10. -/
def MIN_GREEN_shadowed : ℚ := 5
/-- First (shadowed) binding of `MAX_GREEN = 20`; rebound to 60 below. -/
def MAX_GREEN_shadowed : ℚ := 20

def MIN_GREEN : ℚ := 10
def MAX_GREEN : ℚ := 60
def GAP_THRESHOLD : ℚ := 2
def PER_CAR_ADDITIONAL : ℚ := 7/2
def BASE_GREEN : ℚ := 10

def STOP_DIST : ℚ := 130
def north_stop_y : ℚ := CENTER_Y - STOP_DIST
def south_stop_y : ℚ := CENTER_Y + STOP_DIST
def west_stop_x : ℚ := CENTER_X - STOP_DIST
def east_stop_x : ℚ := CENTER_X + STOP_DIST

/-! ### Directions and phases -/

inductive Dir : Type
  | N | S | E | W
deriving DecidableEq, Repr

/-- A signal phase.  In the source a phase is a dict with a `green` set
and a list of `barriers` tuples like `('S','right')`; the control logic
only ever reads the first component of each barrier tuple
(`blocked_dirs = {b[0] for b in barriers}`), so we keep just those
directions. -/
structure Phase where
  green : List Dir
  barriers : List Dir
deriving DecidableEq, Repr

def PHASES : List Phase :=
  [ ⟨[Dir.N], [Dir.S, Dir.W, Dir.E]⟩,
    ⟨[Dir.S], [Dir.N, Dir.W, Dir.E]⟩,
    ⟨[Dir.W], [Dir.N, Dir.E, Dir.S]⟩,
    ⟨[Dir.E], [Dir.W, Dir.S, Dir.N]⟩ ]

def phaseAt (i : Nat) : Phase := PHASES.getD i ⟨[], []⟩

/-! ### Cars -/

/-- A vehicle.  `speed` is in pixels per frame as in `Car.__init__`
(`2.2 + random.random() * 0.8`); `x, y, vx, vy, stopped,
passed_intersection` mirror the Python attributes; `id` models object
identity (see module comment). -/
structure Car where
  id : Nat
  direction : Dir
  speed : ℚ
  x : ℚ
  y : ℚ
  vx : ℚ
  vy : ℚ
  stopped : Bool
  passed_intersection : Bool
deriving DecidableEq, Repr

namespace Car

/-- `Car.__init__`: spawn position and velocity are fixed by the
direction; the initial flags are false. -/
def init (d : Dir) (speed : ℚ) (id : Nat) : Car :=
  match d with
  | Dir.N => ⟨id, Dir.N, speed, CENTER_X + LANE_WIDTH / 2, -30, 0, speed, false, false⟩
  | Dir.S => ⟨id, Dir.S, speed, CENTER_X - LANE_WIDTH / 2, WINDOW_H + 30, 0, -speed, false, false⟩
  | Dir.E => ⟨id, Dir.E, speed, WINDOW_W + 30, CENTER_Y + LANE_WIDTH / 2, -speed, 0, false, false⟩
  | Dir.W => ⟨id, Dir.W, speed, -30, CENTER_Y - LANE_WIDTH / 2, speed, 0, false, false⟩

/-- `Car.update`: one frame of motion; note the source adds `vx, vy`
once per frame with no Δt factor. -/
def update (c : Car) : Car :=
  if c.stopped then c else { c with x := c.x + c.vx, y := c.y + c.vy }

/-- Square of `Car.distance_to_center()` (the source compares the
Euclidean distance against nonnegative radii, so comparing squares is
equivalent and keeps everything rational). -/
def distSqToCenter (c : Car) : ℚ :=
  (c.x - CENTER_X) ^ 2 + (c.y - CENTER_Y) ^ 2

end Car

/-! ### Queue measurement and phase duration -/

/-- The per-direction test of `measure_queues`: the source's
`elif` chain is keyed on `c.direction`, so the branches are mutually
exclusive and the chain is equivalent to this per-direction predicate.
`distance_to_center() < 160` becomes `distSq < 160 ^ 2`. -/
def queueCond (d : Dir) (c : Car) : Bool :=
  decide (c.direction = d) &&
  (match d with
   | Dir.N => decide (c.y < north_stop_y + 20)
   | Dir.S => decide (south_stop_y - 20 < c.y)
   | Dir.W => decide (c.x < west_stop_x + 20)
   | Dir.E => decide (east_stop_x - 20 < c.x)) &&
  (c.stopped || decide (c.distSqToCenter < 160 ^ 2))

/-- `measure_queues`: number of queued cars per direction. -/
def measure_queues (cars : List Car) : Dir → Nat := fun d =>
  (cars.filter (queueCond d)).length

/-- `compute_phase_duration`: demand is accumulated over the phase's
green directions, then the linear duration is clamped. -/
def compute_phase_duration (p : Phase) (queues : Dir → Nat) : ℚ :=
  let demand : Nat := p.green.foldl (fun a d => a + queues d) 0
  max MIN_GREEN (min MAX_GREEN (BASE_GREEN + PER_CAR_ADDITIONAL * (demand : ℚ)))

/-! ### Car-following / signal controller (`apply_controls_to_cars`) -/

/-- The lane ordering used by `apply_controls_to_cars`: front-most
first.  N cars move in +y so larger `y` is closer (sorted with
`reverse=True` on `y`); S cars ascending `y`; W cars move in +x so
larger `x` is closer; E cars ascending `x`.  Python's sort is stable,
as is `List.mergeSort`. -/
def laneLE (d : Dir) (a b : Car) : Bool :=
  match d with
  | Dir.N => decide (b.y ≤ a.y)
  | Dir.S => decide (a.y ≤ b.y)
  | Dir.W => decide (b.x ≤ a.x)
  | Dir.E => decide (a.x ≤ b.x)

/-- Insert `c` behind every already-placed car that compares
less-or-equal to it: the insertion step of a stable insertion sort. -/
def insertBehind (le : Car → Car → Bool) (c : Car) : List Car → List Car
  | [] => [c]
  | d :: t => if le d c then d :: insertBehind le c t else c :: d :: t

/-- Stable sort by repeated insertion (each element lands after all
earlier elements with an equal key, as in Python's stable `sort`).  A
stable sort's output is uniquely determined by the key order and the
input order, so this agrees with the source's `list.sort`. -/
def stableSortLane (le : Car → Car → Bool) (l : List Car) : List Car :=
  l.foldl (fun acc c => insertBehind le c acc) []

/-- The sorted lane (`cars_by_dir[d]` after the sort). -/
def laneCars (cars : List Car) (d : Dir) : List Car :=
  stableSortLane (laneLE d) (cars.filter (fun c => decide (c.direction = d)))

/-- The car immediately ahead of `c` in its lane
(`lane_cars[i - 1]`); `none` for the lane's front-most car.  With
pairwise-distinct ids (true in every reachable state) this is exactly
the predecessor of `c` in the sorted lane. -/
def frontCar (cars : List Car) (c : Car) : Option Car :=
  ((laneCars cars c.direction).takeWhile (fun c2 => c2.id != c.id)).getLast?

/-- Has the car crossed the center line in its travel direction? -/
def crossedCenter (c : Car) : Bool :=
  match c.direction with
  | Dir.N => decide (CENTER_Y < c.y)
  | Dir.S => decide (c.y < CENTER_Y)
  | Dir.W => decide (CENTER_X < c.x)
  | Dir.E => decide (c.x < CENTER_X)

/-- Is the car near its stop line (`near` in the source)? -/
def nearStop (c : Car) : Bool :=
  match c.direction with
  | Dir.N => decide (north_stop_y - 40 < c.y)
  | Dir.S => decide (c.y < south_stop_y + 40)
  | Dir.W => decide (west_stop_x - 40 < c.x)
  | Dir.E => decide (c.x < east_stop_x + 40)

/-- The body of the inner loop of `apply_controls_to_cars` for one car,
given the car ahead of it in its lane (if any).  A car with
`passed_intersection` is released and skipped (`continue`); otherwise
the red-light rule runs first, then the car-following rule (which can
only add a stop), then the passed-intersection marking (which does not
touch `stopped`).  `dist < 25` becomes `distSq < 25 ^ 2`. -/
def controlCar (p : Phase) (front : Option Car) (car : Car) : Car :=
  let green : Bool :=
    decide (car.direction ∈ p.green) && !(decide (car.direction ∈ p.barriers))
  if car.passed_intersection then { car with stopped := false }
  else
    let s1 : Bool := !green && nearStop car
    let s2 : Bool :=
      match front with
      | some f =>
          if (car.x - f.x) ^ 2 + (car.y - f.y) ^ 2 < 25 ^ 2 then true else s1
      | none => s1
    let passed : Bool := if green && crossedCenter car then true else car.passed_intersection
    { car with stopped := s2, passed_intersection := passed }

/-- `apply_controls_to_cars`: every car is rewritten in place.  Each
car's new flags depend only on the active phase, the car itself, and
the position of the car ahead of it in its sorted lane (positions are
not modified by the controller), so the in-place lane loops of the
source are equivalent to this per-car map. -/
def apply_controls_to_cars (p : Phase) (cars : List Car) : List Car :=
  cars.map (fun c => controlCar p (frontCar cars c) c)

/-! ### Simulation state and the main-loop tick -/

/-- The mutable state of the main loop: the module-level variables
`cars`, `car_spawn_timer`, `phase_index`, `phase_elapsed`,
`current_phase_duration`, `last_car_pass`, `accum_seconds`, plus the
fresh-id counter standing for Python object allocation. -/
structure SimState where
  cars : List Car
  nextId : Nat
  car_spawn_timer : ℚ
  phase_index : Nat
  phase_elapsed : ℚ
  current_phase_duration : ℚ
  last_car_pass : List ℚ
  accum_seconds : ℚ
deriving DecidableEq, Repr

/-- The external inputs consumed by one loop iteration: the frame time
`dt`, the number of RIGHT-arrow keydown events, and the spawn
randomness (`random.random() < 0.6`, plus the spawned car's direction
and per-frame speed). -/
structure TickInput where
  dt : ℚ
  manualAdv : Nat
  spawnRoll : Bool
  spawnDir : Dir
  spawnSpeed : ℚ
deriving DecidableEq, Repr

/-- Which of the three switch conditions fired (if any). -/
inductive SwitchBranch : Type
  | queueEmpty | gapOut | maxGreen
deriving DecidableEq, Repr

/-- Instrumentation of one tick: whether the three switch conditions
were reached (`phase_elapsed >= MIN_GREEN` inside the spawn block) and
which one fired. -/
structure TickLog where
  guardEvaluated : Bool
  branchFired : Option SwitchBranch
deriving DecidableEq, Repr

/-- Lines 337-340: advance the three time accumulators by `dt`. -/
def clockStep (s : SimState) (dt : ℚ) : SimState :=
  { s with accum_seconds := s.accum_seconds + dt,
           car_spawn_timer := s.car_spawn_timer + dt,
           phase_elapsed := s.phase_elapsed + dt }

/-- The `K_RIGHT` handler (lines 348-354): advance the phase cyclically,
reset the elapsed time, and recompute the duration from fresh queues. -/
def manualStep (s : SimState) : SimState :=
  let pi := (s.phase_index + 1) % PHASES.length
  { s with phase_index := pi,
           phase_elapsed := 0,
           current_phase_duration := compute_phase_duration (phaseAt pi) (measure_queues s.cars) }

/-- The event loop: each RIGHT-arrow event runs the handler once. -/
def eventStep (s : SimState) (n : Nat) : SimState := manualStep^[n] s

/-- `spawn_car()` under `if random.random() < 0.6` (lines 358-359). -/
def spawnCarStep (s : SimState) (inp : TickInput) : SimState :=
  if inp.spawnRoll then
    { s with cars := s.cars ++ [Car.init inp.spawnDir inp.spawnSpeed s.nextId],
             nextId := s.nextId + 1 }
  else s

/-- The nested `queue_length` closure (lines 365-366): moving cars of a
direction within 120 of the center. -/
def queue_length (cars : List Car) (d : Dir) : Nat :=
  (cars.filter (fun c =>
    !c.stopped && decide (c.direction = d) && decide (c.distSqToCenter < 120 ^ 2))).length

/-- Lines 373-375: the loop writes `now` into
`last_car_pass[phase_index]` once for every car with positive distance
to center that is not stopped; all writes store the same value, so the
loop is equivalent to one conditional write. -/
def gapUpdateStep (s : SimState) : SimState :=
  if s.cars.any (fun c => decide (0 < c.distSqToCenter) && !c.stopped) then
    { s with last_car_pass := s.last_car_pass.set s.phase_index s.accum_seconds }
  else s

/-- The three switch conditions (lines 378-390), evaluated in their
source order.  `startPhase` is the phase index the Python variable
`current_phase` still holds at line 380: it was assigned at the end of
the previous iteration, so it is the phase index at the start of this
tick (a manual advance earlier in the same tick does not refresh it). -/
def switchBranch (startPhase : Nat) (s : SimState) : Option SwitchBranch :=
  if MIN_GREEN ≤ s.phase_elapsed then
    if (phaseAt startPhase).green.all (fun d => queue_length s.cars d == 0) then
      some SwitchBranch.queueEmpty
    else if GAP_THRESHOLD ≤ s.accum_seconds - s.last_car_pass.getD s.phase_index 0 then
      some SwitchBranch.gapOut
    else if MAX_GREEN ≤ s.phase_elapsed then
      some SwitchBranch.maxGreen
    else none
  else none

/-- Apply the fired transition (advance cyclically, reset elapsed). -/
def transitionStep (b : Option SwitchBranch) (s : SimState) : SimState :=
  if b.isSome then
    { s with phase_index := (s.phase_index + 1) % PHASES.length, phase_elapsed := 0 }
  else s

/-- Lines 393-394: remeasure queues and recompute the duration for the
(possibly new) current phase.  This runs on every tick that enters the
spawn block, transition or not. -/
def recomputeStep (s : SimState) : SimState :=
  { s with current_phase_duration :=
      compute_phase_duration (phaseAt s.phase_index) (measure_queues s.cars) }

/-- The whole `if car_spawn_timer > 0.8:` block (lines 357-394).  When
the timer has not reached 0.8 s none of it runs — in particular the
switch conditions are not evaluated at all. -/
def spawnBlock (startPhase : Nat) (s : SimState) (inp : TickInput) :
    SimState × TickLog :=
  if 4/5 < s.car_spawn_timer then
    let s1 := spawnCarStep s inp
    let s2 := { s1 with car_spawn_timer := 0 }
    let s3 := gapUpdateStep s2
    let b := switchBranch startPhase s3
    let s4 := transitionStep b s3
    let s5 := recomputeStep s4
    (s5, ⟨decide (MIN_GREEN ≤ s3.phase_elapsed), b⟩)
  else (s, ⟨false, none⟩)

/-- Is the car beyond the removal bounds (lines 406)? -/
def outOfBounds (c : Car) : Bool :=
  decide (c.x < -150) || decide (WINDOW_W + 150 < c.x) ||
  decide (c.y < -150) || decide (WINDOW_H + 150 < c.y)

/-- Lines 400-407: run the controller for the now-current phase, move
every car one frame, and drop cars beyond the bounds.  The source
iterates over a copy and removes by identity, which is this
map-then-filter. -/
def motionStep (s : SimState) : SimState :=
  let controlled := apply_controls_to_cars (phaseAt s.phase_index) s.cars
  { s with cars := (controlled.map Car.update).filter (fun c => !outOfBounds c) }

/-- One iteration of the main `while running:` loop, with its
instrumentation.  Quit/ESC events only end the loop after the
iteration, so they do not appear in the state transition. -/
def tick (s : SimState) (inp : TickInput) : SimState × TickLog :=
  let startPhase := s.phase_index
  let s1 := clockStep s inp.dt
  let s2 := eventStep s1 inp.manualAdv
  let (s3, log) := spawnBlock startPhase s2 inp
  (motionStep s3, log)

/-- Run a sequence of ticks, discarding the logs. -/
def runTicks (s : SimState) : List TickInput → SimState
  | [] => s
  | i :: rest => runTicks (tick s i).1 rest

/-- The state right after module initialization (lines 214-218 and
329-334): no cars, phase 0, and the first phase duration computed from
the (empty) initial queues. -/
def initState : SimState :=
  { cars := [],
    nextId := 0,
    car_spawn_timer := 0,
    phase_index := 0,
    phase_elapsed := 0,
    current_phase_duration := compute_phase_duration (phaseAt 0) (measure_queues []),
    last_car_pass := [0, 0, 0, 0],
    accum_seconds := 0 }

/-- Reachable simulation states: the initial state and everything a
tick (with arbitrary inputs) can produce from one. -/
inductive Reach : SimState → Prop
  | init : Reach initState
  | step (s : SimState) (inp : TickInput) : Reach s → Reach (tick s inp).1

/-! ### Per-car lane-geometry invariant

Every car travels on a fixed lane: its cross-axis coordinate is set at
spawn to `CENTER ± LANE_WIDTH / 2` and its cross-axis velocity is 0, so
the coordinate never changes.  This is what keeps every car's distance
to the center strictly positive. -/

def Car.geomOK (c : Car) : Prop :=
  match c.direction with
  | Dir.N => c.x = CENTER_X + LANE_WIDTH / 2 ∧ c.vx = 0
  | Dir.S => c.x = CENTER_X - LANE_WIDTH / 2 ∧ c.vx = 0
  | Dir.E => c.y = CENTER_Y + LANE_WIDTH / 2 ∧ c.vy = 0
  | Dir.W => c.y = CENTER_Y - LANE_WIDTH / 2 ∧ c.vy = 0

/-- The inductive invariant of the simulation: lane geometry for every
car, a valid phase index, the fixed `last_car_pass` table length,
id freshness and distinctness, and the clamped duration. -/
def GoodState (s : SimState) : Prop :=
  (∀ c ∈ s.cars, Car.geomOK c) ∧
  s.phase_index < PHASES.length ∧
  s.last_car_pass.length = PHASES.length ∧
  (∀ c ∈ s.cars, c.id < s.nextId) ∧
  (s.cars.map Car.id).Nodup ∧
  MIN_GREEN ≤ s.current_phase_duration ∧ s.current_phase_duration ≤ MAX_GREEN

/-- Modelled from the spec: the demand-duration law written exactly as
the spec words it, `clamp(BASE_GREEN + PER_CAR_ADDITIONAL * q, MIN_GREEN,
MAX_GREEN)`; refinement target for claim C4. -/
def clampDuration (q : ℚ) : ℚ :=
  max MIN_GREEN (min MAX_GREEN (BASE_GREEN + PER_CAR_ADDITIONAL * q))

/-! ### Concrete fixtures used by witnesses and counterexamples -/

/-- A cleared (passed) northbound car in mid-intersection. -/
def c1wCar : Car := ⟨0, Dir.N, 5/2, 420, 500, 0, 5/2, false, true⟩
def c1wState : SimState := { initState with cars := [c1wCar], nextId := 1 }
def c1wInput : TickInput := ⟨1, 0, false, Dir.N, 0⟩
/-- The same car one tick later: still cleared, moving, advanced 2.5 px. -/
def c1wPost : Car := ⟨0, Dir.N, 5/2, 420, 1005/2, 0, 5/2, false, true⟩

/-- Two cleared northbound cars 10 px apart (the trailing one caught up
after both committed to the intersection). -/
def c2xFront : Car := ⟨0, Dir.N, 5/2, 420, 500, 0, 5/2, false, true⟩
def c2xRear : Car := ⟨1, Dir.N, 5/2, 420, 490, 0, 5/2, false, true⟩
def c2xCars : List Car := [c2xFront, c2xRear]

/-- Two approaching (not yet cleared) northbound cars 20 px apart. -/
def c2wFront : Car := ⟨0, Dir.N, 5/2, 420, 260, 0, 5/2, false, false⟩
def c2wRear : Car := ⟨1, Dir.N, 23/10, 420, 240, 0, 23/10, false, false⟩
def c2wCars : List Car := [c2wFront, c2wRear]

def c5wState : SimState := { initState with phase_elapsed := 9 }
def c5wInput : TickInput := ⟨2, 0, false, Dir.N, 0⟩

def c6xState : SimState := { initState with phase_elapsed := 20 }
def c6xInput : TickInput := ⟨1/10, 0, false, Dir.N, 0⟩

/-- A stopped northbound car inside the N queue-measurement region. -/
def c7xCar : Car := ⟨0, Dir.N, 5/2, 420, 280, 0, 5/2, true, false⟩
def c7xState : SimState :=
  { initState with cars := [c7xCar], nextId := 1, car_spawn_timer := 7/10 }
def c7xInput : TickInput := ⟨1/5, 0, false, Dir.N, 0⟩

def c7wState : SimState := { initState with phase_elapsed := 3 }
def c7wInput : TickInput := ⟨1/10, 0, false, Dir.N, 0⟩

/-- A cleared, moving northbound car, and a tick of half a second. -/
def c8xCar : Car := ⟨0, Dir.N, 5/2, 420, 300, 0, 5/2, false, true⟩
def c8xState : SimState := { initState with cars := [c8xCar], nextId := 1 }
def c8xInput : TickInput := ⟨1/2, 0, false, Dir.N, 0⟩
def c8xPost : Car := ⟨0, Dir.N, 5/2, 420, 605/2, 0, 5/2, false, true⟩

/-- A tick carrying a negative frame time. -/
def c9xInput : TickInput := ⟨-1, 0, false, Dir.N, 0⟩

def c10wInput : TickInput := ⟨1, 0, false, Dir.N, 0⟩

end ATC

namespace ATC

/-! ### Elementary facts about the pieces -/

theorem compute_phase_duration_ge (p : Phase) (q : Dir → Nat) :
    MIN_GREEN ≤ compute_phase_duration p q :=
  le_max_left _ _

theorem compute_phase_duration_le (p : Phase) (q : Dir → Nat) :
    compute_phase_duration p q ≤ MAX_GREEN :=
  max_le (by norm_num [MIN_GREEN, MAX_GREEN]) (min_le_left _ _)

theorem controlCar_id (p : Phase) (f : Option Car) (c : Car) :
    (controlCar p f c).id = c.id := by
  unfold controlCar
  split <;> rfl

theorem controlCar_pos (p : Phase) (f : Option Car) (c : Car) :
    (controlCar p f c).x = c.x ∧ (controlCar p f c).y = c.y ∧
    (controlCar p f c).vx = c.vx ∧ (controlCar p f c).vy = c.vy ∧
    (controlCar p f c).speed = c.speed ∧ (controlCar p f c).direction = c.direction := by
  unfold controlCar
  split <;> exact ⟨rfl, rfl, rfl, rfl, rfl, rfl⟩

theorem controlCar_of_passed (p : Phase) (f : Option Car) (c : Car)
    (h : c.passed_intersection = true) :
    controlCar p f c = { c with stopped := false } := by
  unfold controlCar
  rw [if_pos h]

theorem update_id (c : Car) : (Car.update c).id = c.id := by
  unfold Car.update; split <;> rfl

theorem update_flags (c : Car) :
    (Car.update c).stopped = c.stopped ∧
    (Car.update c).passed_intersection = c.passed_intersection ∧
    (Car.update c).direction = c.direction ∧
    (Car.update c).vx = c.vx ∧ (Car.update c).vy = c.vy ∧
    (Car.update c).speed = c.speed := by
  unfold Car.update; split <;> exact ⟨rfl, rfl, rfl, rfl, rfl, rfl⟩

theorem init_id (d : Dir) (sp : ℚ) (n : Nat) : (Car.init d sp n).id = n := by
  cases d <;> rfl

theorem init_passed (d : Dir) (sp : ℚ) (n : Nat) :
    (Car.init d sp n).passed_intersection = false := by
  cases d <;> rfl

theorem init_geomOK (d : Dir) (sp : ℚ) (n : Nat) : (Car.init d sp n).geomOK := by
  cases d <;> simp [Car.init, Car.geomOK]

theorem geomOK_distSq_pos (c : Car) (h : c.geomOK) : 0 < c.distSqToCenter := by
  unfold Car.distSqToCenter
  unfold Car.geomOK at h
  cases hd : c.direction <;> rw [hd] at h <;> obtain ⟨h1, -⟩ := h <;> rw [h1] <;>
    norm_num [CENTER_X, CENTER_Y, LANE_WIDTH] <;>
    nlinarith [sq_nonneg (c.y - (400 : ℚ)), sq_nonneg (c.x - (400 : ℚ))]

/-! ### Stage projection lemmas -/

theorem manualStep_proj (s : SimState) :
    (manualStep s).cars = s.cars ∧
    (manualStep s).nextId = s.nextId ∧
    (manualStep s).car_spawn_timer = s.car_spawn_timer ∧
    (manualStep s).accum_seconds = s.accum_seconds ∧
    (manualStep s).last_car_pass = s.last_car_pass ∧
    (manualStep s).phase_elapsed = 0 ∧
    (manualStep s).phase_index = (s.phase_index + 1) % PHASES.length :=
  ⟨rfl, rfl, rfl, rfl, rfl, rfl, rfl⟩

theorem eventStep_proj (n : Nat) (s : SimState) :
    (eventStep s n).cars = s.cars ∧
    (eventStep s n).nextId = s.nextId ∧
    (eventStep s n).car_spawn_timer = s.car_spawn_timer ∧
    (eventStep s n).accum_seconds = s.accum_seconds ∧
    (eventStep s n).last_car_pass = s.last_car_pass := by
  induction n generalizing s with
  | zero => exact ⟨rfl, rfl, rfl, rfl, rfl⟩
  | succ n ih =>
    have h := ih (manualStep s)
    unfold eventStep at h ⊢
    rw [Function.iterate_succ_apply]
    exact h

theorem eventStep_zero (s : SimState) : eventStep s 0 = s := rfl

theorem eventStep_elapsed_pos (n : Nat) (s : SimState) (h : n ≠ 0) :
    (eventStep s n).phase_elapsed = 0 := by
  cases n with
  | zero => exact absurd rfl h
  | succ n =>
    unfold eventStep
    rw [Function.iterate_succ_apply']
    rfl

theorem eventStep_index_lt (n : Nat) (s : SimState) (h : s.phase_index < PHASES.length) :
    (eventStep s n).phase_index < PHASES.length := by
  cases n with
  | zero => exact h
  | succ n =>
    unfold eventStep
    rw [Function.iterate_succ_apply']
    exact Nat.mod_lt _ (by decide)

theorem eventStep_duration (n : Nat) (s : SimState) :
    (eventStep s n).current_phase_duration = s.current_phase_duration ∨
    ∃ p q, (eventStep s n).current_phase_duration = compute_phase_duration p q := by
  cases n with
  | zero => exact Or.inl rfl
  | succ n =>
    right
    unfold eventStep
    rw [Function.iterate_succ_apply']
    exact ⟨_, _, rfl⟩

end ATC

namespace ATC

theorem spawnCarStep_proj (s : SimState) (inp : TickInput) :
    (spawnCarStep s inp).car_spawn_timer = s.car_spawn_timer ∧
    (spawnCarStep s inp).phase_index = s.phase_index ∧
    (spawnCarStep s inp).phase_elapsed = s.phase_elapsed ∧
    (spawnCarStep s inp).accum_seconds = s.accum_seconds ∧
    (spawnCarStep s inp).last_car_pass = s.last_car_pass ∧
    (spawnCarStep s inp).current_phase_duration = s.current_phase_duration := by
  unfold spawnCarStep
  split <;> exact ⟨rfl, rfl, rfl, rfl, rfl, rfl⟩

theorem spawnCarStep_cars (s : SimState) (inp : TickInput) :
    ((spawnCarStep s inp).cars = s.cars ∧ (spawnCarStep s inp).nextId = s.nextId) ∨
    ((spawnCarStep s inp).cars = s.cars ++ [Car.init inp.spawnDir inp.spawnSpeed s.nextId] ∧
     (spawnCarStep s inp).nextId = s.nextId + 1) := by
  unfold spawnCarStep
  split
  · exact Or.inr ⟨rfl, rfl⟩
  · exact Or.inl ⟨rfl, rfl⟩

theorem gapUpdateStep_proj (s : SimState) :
    (gapUpdateStep s).cars = s.cars ∧
    (gapUpdateStep s).nextId = s.nextId ∧
    (gapUpdateStep s).car_spawn_timer = s.car_spawn_timer ∧
    (gapUpdateStep s).phase_index = s.phase_index ∧
    (gapUpdateStep s).phase_elapsed = s.phase_elapsed ∧
    (gapUpdateStep s).accum_seconds = s.accum_seconds ∧
    (gapUpdateStep s).current_phase_duration = s.current_phase_duration ∧
    (gapUpdateStep s).last_car_pass.length = s.last_car_pass.length := by
  unfold gapUpdateStep
  split
  · exact ⟨rfl, rfl, rfl, rfl, rfl, rfl, rfl, List.length_set ..⟩
  · exact ⟨rfl, rfl, rfl, rfl, rfl, rfl, rfl, rfl⟩

theorem transitionStep_proj (b : Option SwitchBranch) (s : SimState) :
    (transitionStep b s).cars = s.cars ∧
    (transitionStep b s).nextId = s.nextId ∧
    (transitionStep b s).car_spawn_timer = s.car_spawn_timer ∧
    (transitionStep b s).accum_seconds = s.accum_seconds ∧
    (transitionStep b s).last_car_pass = s.last_car_pass ∧
    (transitionStep b s).current_phase_duration = s.current_phase_duration := by
  unfold transitionStep
  split <;> exact ⟨rfl, rfl, rfl, rfl, rfl, rfl⟩

theorem transitionStep_none (s : SimState) : transitionStep none s = s := rfl

theorem transitionStep_index (b : Option SwitchBranch) (s : SimState)
    (h : s.phase_index < PHASES.length) :
    (transitionStep b s).phase_index < PHASES.length := by
  unfold transitionStep
  split
  · exact Nat.mod_lt _ (by decide)
  · exact h

theorem transitionStep_index_of_none (b : Option SwitchBranch) (s : SimState)
    (h : b = none) : (transitionStep b s).phase_index = s.phase_index := by
  rw [h, transitionStep_none]

theorem recomputeStep_proj (s : SimState) :
    (recomputeStep s).cars = s.cars ∧
    (recomputeStep s).nextId = s.nextId ∧
    (recomputeStep s).car_spawn_timer = s.car_spawn_timer ∧
    (recomputeStep s).phase_index = s.phase_index ∧
    (recomputeStep s).phase_elapsed = s.phase_elapsed ∧
    (recomputeStep s).accum_seconds = s.accum_seconds ∧
    (recomputeStep s).last_car_pass = s.last_car_pass :=
  ⟨rfl, rfl, rfl, rfl, rfl, rfl, rfl⟩

end ATC

namespace ATC

theorem motionStep_proj (s : SimState) :
    (motionStep s).nextId = s.nextId ∧
    (motionStep s).car_spawn_timer = s.car_spawn_timer ∧
    (motionStep s).phase_index = s.phase_index ∧
    (motionStep s).phase_elapsed = s.phase_elapsed ∧
    (motionStep s).accum_seconds = s.accum_seconds ∧
    (motionStep s).last_car_pass = s.last_car_pass ∧
    (motionStep s).current_phase_duration = s.current_phase_duration :=
  ⟨rfl, rfl, rfl, rfl, rfl, rfl, rfl⟩

theorem motionStep_cars (s : SimState) :
    (motionStep s).cars =
      ((apply_controls_to_cars (phaseAt s.phase_index) s.cars).map Car.update).filter
        (fun c => !outOfBounds c) := rfl

theorem tick_eq (s : SimState) (inp : TickInput) :
    tick s inp =
      ((motionStep (spawnBlock s.phase_index (eventStep (clockStep s inp.dt) inp.manualAdv) inp).1),
       (spawnBlock s.phase_index (eventStep (clockStep s inp.dt) inp.manualAdv) inp).2) := rfl

theorem spawnBlock_inactive (sp : Nat) (s : SimState) (inp : TickInput)
    (h : ¬ (4/5 : ℚ) < s.car_spawn_timer) :
    spawnBlock sp s inp = (s, ⟨false, none⟩) := by
  unfold spawnBlock
  rw [if_neg h]

theorem spawnBlock_active (sp : Nat) (s : SimState) (inp : TickInput)
    (h : (4/5 : ℚ) < s.car_spawn_timer) :
    spawnBlock sp s inp =
      (recomputeStep
        (transitionStep
          (switchBranch sp (gapUpdateStep { spawnCarStep s inp with car_spawn_timer := 0 }))
          (gapUpdateStep { spawnCarStep s inp with car_spawn_timer := 0 })),
       ⟨decide (MIN_GREEN ≤ (gapUpdateStep { spawnCarStep s inp with car_spawn_timer := 0 }).phase_elapsed),
        switchBranch sp (gapUpdateStep { spawnCarStep s inp with car_spawn_timer := 0 })⟩) := by
  unfold spawnBlock
  rw [if_pos h]

theorem spawnBlock_accum (sp : Nat) (s : SimState) (inp : TickInput) :
    (spawnBlock sp s inp).1.accum_seconds = s.accum_seconds := by
  by_cases h : (4/5 : ℚ) < s.car_spawn_timer
  · rw [spawnBlock_active sp s inp h]
    obtain ⟨-, -, -, tA, -, -⟩ := transitionStep_proj
      (switchBranch sp (gapUpdateStep { spawnCarStep s inp with car_spawn_timer := 0 }))
      (gapUpdateStep { spawnCarStep s inp with car_spawn_timer := 0 })
    obtain ⟨-, -, -, -, -, gA, -, -⟩ :=
      gapUpdateStep_proj { spawnCarStep s inp with car_spawn_timer := 0 }
    obtain ⟨-, -, -, sA, -, -⟩ := spawnCarStep_proj s inp
    show (transitionStep _ _).accum_seconds = _
    rw [tA, gA]
    show (spawnCarStep s inp).accum_seconds = _
    rw [sA]
  · rw [spawnBlock_inactive sp s inp h]

end ATC

namespace ATC

theorem switchBranch_guard (sp : Nat) (s : SimState)
    (h : switchBranch sp s ≠ none) : MIN_GREEN ≤ s.phase_elapsed := by
  unfold switchBranch at h
  by_cases hg : MIN_GREEN ≤ s.phase_elapsed
  · exact hg
  · rw [if_neg hg] at h
    exact absurd rfl h

theorem clockStep_proj (s : SimState) (dt : ℚ) :
    (clockStep s dt).cars = s.cars ∧
    (clockStep s dt).nextId = s.nextId ∧
    (clockStep s dt).phase_index = s.phase_index ∧
    (clockStep s dt).last_car_pass = s.last_car_pass ∧
    (clockStep s dt).current_phase_duration = s.current_phase_duration ∧
    (clockStep s dt).car_spawn_timer = s.car_spawn_timer + dt ∧
    (clockStep s dt).phase_elapsed = s.phase_elapsed + dt ∧
    (clockStep s dt).accum_seconds = s.accum_seconds + dt :=
  ⟨rfl, rfl, rfl, rfl, rfl, rfl, rfl, rfl⟩

/-- With no RIGHT-arrow events, the nested state reached just before the
spawn block is the clock-advanced state. -/
theorem preSpawn_no_manual (s : SimState) (inp : TickInput) (h : inp.manualAdv = 0) :
    eventStep (clockStep s inp.dt) inp.manualAdv = clockStep s inp.dt := by
  rw [h, eventStep_zero]

theorem spawnBlock_snd_inactive (sp : Nat) (s : SimState) (inp : TickInput)
    (h : ¬ (4/5 : ℚ) < s.car_spawn_timer) :
    (spawnBlock sp s inp).2 = ⟨false, none⟩ := by
  rw [spawnBlock_inactive sp s inp h]

theorem spawnBlock_fst_index (sp : Nat) (s : SimState) (inp : TickInput)
    (hch : (spawnBlock sp s inp).1.phase_index ≠ s.phase_index) :
    (spawnBlock sp s inp).2.branchFired ≠ none ∧ MIN_GREEN ≤ s.phase_elapsed := by
  by_cases h : (4/5 : ℚ) < s.car_spawn_timer
  · rw [spawnBlock_active sp s inp h] at hch ⊢
    set s3 := gapUpdateStep { spawnCarStep s inp with car_spawn_timer := 0 } with hs3
    set b := switchBranch sp s3 with hb
    have hidx3 : s3.phase_index = s.phase_index := by
      obtain ⟨-, -, -, gI, -, -, -, -⟩ :=
        gapUpdateStep_proj { spawnCarStep s inp with car_spawn_timer := 0 }
      rw [hs3, gI]
      obtain ⟨-, sI, -, -, -, -⟩ := spawnCarStep_proj s inp
      exact sI
    have hel3 : s3.phase_elapsed = s.phase_elapsed := by
      obtain ⟨-, -, -, -, gE, -, -, -⟩ :=
        gapUpdateStep_proj { spawnCarStep s inp with car_spawn_timer := 0 }
      rw [hs3, gE]
      obtain ⟨-, -, sE, -, -, -⟩ := spawnCarStep_proj s inp
      exact sE
    have hbne : b ≠ none := by
      intro hbn
      apply hch
      show (recomputeStep (transitionStep b s3)).phase_index = s.phase_index
      obtain ⟨-, -, -, rI, -, -, -⟩ := recomputeStep_proj (transitionStep b s3)
      rw [rI, transitionStep_index_of_none b s3 hbn, hidx3]
    refine ⟨hbne, ?_⟩
    rw [← hel3]
    exact switchBranch_guard sp s3 hbne
  · rw [spawnBlock_inactive sp s inp h] at hch
    exact absurd rfl hch

/-- With no manual advance, a change of `phase_index` across a tick can
only come from a fired switch branch, which requires the (incremented)
elapsed time to be at least `MIN_GREEN`. -/
theorem tick_auto_transition (s : SimState) (inp : TickInput)
    (hman : inp.manualAdv = 0)
    (hch : (tick s inp).1.phase_index ≠ s.phase_index) :
    (tick s inp).2.branchFired ≠ none ∧ MIN_GREEN ≤ s.phase_elapsed + inp.dt := by
  rw [tick_eq] at hch ⊢
  rw [preSpawn_no_manual s inp hman] at hch ⊢
  have hidx :
      (motionStep (spawnBlock s.phase_index (clockStep s inp.dt) inp).1).phase_index =
      (spawnBlock s.phase_index (clockStep s inp.dt) inp).1.phase_index :=
    (motionStep_proj _).2.2.1
  rw [hidx] at hch
  have hcl : (clockStep s inp.dt).phase_index = s.phase_index := rfl
  rw [← hcl] at hch
  obtain ⟨h1, h2⟩ := spawnBlock_fst_index s.phase_index (clockStep s inp.dt) inp hch
  exact ⟨h1, by rw [show (clockStep s inp.dt).phase_elapsed = s.phase_elapsed + inp.dt from rfl] at h2; exact h2⟩

end ATC

namespace ATC

/-- Characterization of when the switch conditions are reached
(`guardEvaluated`): the tick must enter the spawn block
(`car_spawn_timer + dt > 0.8`) and the phase-elapsed clock, already
advanced by `dt` (and reset by any manual advance), must be at least
`MIN_GREEN`. -/
theorem tick_guard_iff (s : SimState) (inp : TickInput) :
    (tick s inp).2.guardEvaluated = true ↔
      ((4/5 : ℚ) < s.car_spawn_timer + inp.dt ∧ inp.manualAdv = 0 ∧
       MIN_GREEN ≤ s.phase_elapsed + inp.dt) := by
  rw [tick_eq]
  set s2 := eventStep (clockStep s inp.dt) inp.manualAdv with hs2
  have htimer : s2.car_spawn_timer = s.car_spawn_timer + inp.dt := by
    rw [hs2, (eventStep_proj _ _).2.2.1]
    rfl
  by_cases hsp : (4/5 : ℚ) < s2.car_spawn_timer
  · rw [spawnBlock_active s.phase_index s2 inp hsp]
    have hel3 : (gapUpdateStep { spawnCarStep s2 inp with car_spawn_timer := 0 }).phase_elapsed =
        s2.phase_elapsed := by
      obtain ⟨-, -, -, -, gE, -, -, -⟩ :=
        gapUpdateStep_proj { spawnCarStep s2 inp with car_spawn_timer := 0 }
      rw [gE]
      exact (spawnCarStep_proj s2 inp).2.2.1
    show decide (MIN_GREEN ≤ _) = true ↔ _
    rw [hel3, decide_eq_true_eq]
    cases hn : inp.manualAdv with
    | zero =>
      have : s2.phase_elapsed = s.phase_elapsed + inp.dt := by
        rw [hs2, hn, eventStep_zero]
        rfl
      rw [this]
      constructor
      · intro h
        exact ⟨by rw [← htimer]; exact hsp, rfl, h⟩
      · intro h
        exact h.2.2
    | succ n =>
      have : s2.phase_elapsed = 0 := by
        rw [hs2, hn]
        exact eventStep_elapsed_pos (n + 1) _ (Nat.succ_ne_zero n)
      rw [this]
      constructor
      · intro h
        exact absurd h (by norm_num [MIN_GREEN])
      · intro h
        exact absurd h.2.1 (by simp)
  · rw [spawnBlock_inactive s.phase_index s2 inp hsp]
    rw [htimer] at hsp
    constructor
    · intro h
      exact absurd h (by simp)
    · intro h
      exact absurd h.1 hsp

/-- `last_car_pass` never changes length across a tick. -/
theorem tick_last_len (s : SimState) (inp : TickInput) :
    (tick s inp).1.last_car_pass.length = s.last_car_pass.length := by
  rw [tick_eq]
  set s2 := eventStep (clockStep s inp.dt) inp.manualAdv with hs2
  have h2 : s2.last_car_pass = s.last_car_pass := by
    rw [hs2, (eventStep_proj _ _).2.2.2.2]
    rfl
  rw [(motionStep_proj _).2.2.2.2.2.1]
  by_cases hsp : (4/5 : ℚ) < s2.car_spawn_timer
  · rw [spawnBlock_active s.phase_index s2 inp hsp]
    set s2' : SimState := { spawnCarStep s2 inp with car_spawn_timer := 0 } with hs2'
    set s3 := gapUpdateStep s2' with hs3
    set b := switchBranch s.phase_index s3 with hb
    have r1 : (recomputeStep (transitionStep b s3)).last_car_pass =
        (transitionStep b s3).last_car_pass := (recomputeStep_proj _).2.2.2.2.2.2
    have r2 : (transitionStep b s3).last_car_pass = s3.last_car_pass :=
      (transitionStep_proj _ _).2.2.2.2.1
    have r3 : s3.last_car_pass.length = s2'.last_car_pass.length :=
      (gapUpdateStep_proj _).2.2.2.2.2.2.2
    have r4 : s2'.last_car_pass = s2.last_car_pass := (spawnCarStep_proj s2 inp).2.2.2.2.1
    rw [r1, r2, r3, r4, h2]
  · rw [spawnBlock_inactive s.phase_index s2 inp hsp, h2]

/-- Across a tick, the duration is either untouched or the output of
`compute_phase_duration`. -/
theorem tick_duration_cases (s : SimState) (inp : TickInput) :
    (tick s inp).1.current_phase_duration = s.current_phase_duration ∨
    ∃ p q, (tick s inp).1.current_phase_duration = compute_phase_duration p q := by
  rw [tick_eq]
  set s2 := eventStep (clockStep s inp.dt) inp.manualAdv with hs2
  rw [(motionStep_proj _).2.2.2.2.2.2]
  by_cases hsp : (4/5 : ℚ) < s2.car_spawn_timer
  · rw [spawnBlock_active s.phase_index s2 inp hsp]
    exact Or.inr ⟨_, _, rfl⟩
  · rw [spawnBlock_inactive s.phase_index s2 inp hsp]
    have := eventStep_duration inp.manualAdv (clockStep s inp.dt)
    rw [← hs2] at this
    rcases this with h | h
    · exact Or.inl (by rw [h]; rfl)
    · exact Or.inr h

/-- Frame condition for C7: on a tick with no manual advance that does
not enter the spawn block, the duration is untouched. -/
theorem tick_duration_frame (s : SimState) (inp : TickInput)
    (hman : inp.manualAdv = 0)
    (hsp : s.car_spawn_timer + inp.dt ≤ 4/5) :
    (tick s inp).1.current_phase_duration = s.current_phase_duration := by
  rw [tick_eq, preSpawn_no_manual s inp hman]
  rw [(motionStep_proj _).2.2.2.2.2.2]
  have hns : ¬ (4/5 : ℚ) < (clockStep s inp.dt).car_spawn_timer := by
    rw [(clockStep_proj s inp.dt).2.2.2.2.2.1]
    exact not_lt.mpr hsp
  rw [spawnBlock_inactive s.phase_index (clockStep s inp.dt) inp hns]
  rfl

/-- On a spawn-block tick with no manual advance and no actual spawn,
the duration is recomputed for the (possibly advanced) current phase
from the queues measured on the unchanged car list. -/
theorem tick_duration_recompute (s : SimState) (inp : TickInput)
    (hman : inp.manualAdv = 0) (hroll : inp.spawnRoll = false)
    (hsp : (4/5 : ℚ) < s.car_spawn_timer + inp.dt) :
    (tick s inp).1.current_phase_duration =
      compute_phase_duration (phaseAt (tick s inp).1.phase_index) (measure_queues s.cars) := by
  rw [tick_eq, preSpawn_no_manual s inp hman]
  set s1 := clockStep s inp.dt with hs1
  have hact : (4/5 : ℚ) < s1.car_spawn_timer := by
    rw [hs1, (clockStep_proj s inp.dt).2.2.2.2.2.1]
    exact hsp
  rw [(motionStep_proj _).2.2.2.2.2.2, (motionStep_proj _).2.2.1]
  rw [spawnBlock_active s.phase_index s1 inp hact]
  set s2' : SimState := { spawnCarStep s1 inp with car_spawn_timer := 0 } with hs2'
  set s3 := gapUpdateStep s2' with hs3
  set b := switchBranch s.phase_index s3 with hb
  show compute_phase_duration (phaseAt (transitionStep b s3).phase_index)
        (measure_queues (transitionStep b s3).cars) =
      compute_phase_duration (phaseAt (recomputeStep (transitionStep b s3)).phase_index)
        (measure_queues s.cars)
  have hcars : (transitionStep b s3).cars = s.cars := by
    rw [(transitionStep_proj b s3).1]
    rw [hs3, (gapUpdateStep_proj s2').1]
    have : s2'.cars = (spawnCarStep s1 inp).cars := rfl
    rw [this]
    unfold spawnCarStep
    rw [hroll]
    show s1.cars = s.cars
    rw [hs1, (clockStep_proj s inp.dt).1]
  have hidx : (recomputeStep (transitionStep b s3)).phase_index =
      (transitionStep b s3).phase_index := (recomputeStep_proj _).2.2.2.1
  rw [hcars, hidx]

end ATC

namespace ATC

/-- Structure of the car list across one tick: the pre-existing cars
(plus at most one spawned car with the fresh id) are passed through the
controller, moved one frame, and filtered by the removal bounds. -/
theorem tick_cars_shape (s : SimState) (inp : TickInput) :
    ∃ (cs : List Car) (ni : Nat) (ph : Phase),
      ((cs = s.cars ∧ ni = s.nextId) ∨
       (cs = s.cars ++ [Car.init inp.spawnDir inp.spawnSpeed s.nextId] ∧ ni = s.nextId + 1)) ∧
      (tick s inp).1.nextId = ni ∧
      (tick s inp).1.cars =
        ((apply_controls_to_cars ph cs).map Car.update).filter (fun c => !outOfBounds c) := by
  rw [tick_eq]
  set s2 := eventStep (clockStep s inp.dt) inp.manualAdv with hs2
  have hcars2 : s2.cars = s.cars := by
    rw [hs2, (eventStep_proj _ _).1]
    rfl
  have hni2 : s2.nextId = s.nextId := by
    rw [hs2, (eventStep_proj _ _).2.1]
    rfl
  by_cases hsp : (4/5 : ℚ) < s2.car_spawn_timer
  · rw [spawnBlock_active s.phase_index s2 inp hsp]
    set s2' : SimState := { spawnCarStep s2 inp with car_spawn_timer := 0 } with hs2'
    set s3 := gapUpdateStep s2' with hs3
    set b := switchBranch s.phase_index s3 with hb
    set s5 := recomputeStep (transitionStep b s3) with hs5
    have hc5 : s5.cars = (spawnCarStep s2 inp).cars := by
      rw [hs5, (recomputeStep_proj _).1, (transitionStep_proj _ _).1, hs3,
        (gapUpdateStep_proj _).1]
    have hn5 : s5.nextId = (spawnCarStep s2 inp).nextId := by
      rw [hs5, (recomputeStep_proj _).2.1, (transitionStep_proj _ _).2.1, hs3,
        (gapUpdateStep_proj _).2.1]
    refine ⟨s5.cars, s5.nextId, phaseAt s5.phase_index, ?_, rfl, rfl⟩
    rcases spawnCarStep_cars s2 inp with ⟨h1, h2⟩ | ⟨h1, h2⟩
    · left
      rw [hc5, h1, hcars2, hn5, h2, hni2]
      exact ⟨rfl, rfl⟩
    · right
      rw [hc5, h1, hcars2, hni2, hn5, h2, hni2]
      exact ⟨rfl, rfl⟩
  · rw [spawnBlock_inactive s.phase_index s2 inp hsp]
    exact ⟨s2.cars, s2.nextId, phaseAt s2.phase_index, Or.inl ⟨hcars2, hni2⟩, rfl, rfl⟩

/-- Membership formulation of `tick_cars_shape`: every car present after
a tick is the moved, controlled image of a pre-tick car or of the
freshly spawned car. -/
theorem tick_cars_mem (s : SimState) (inp : TickInput) (c2 : Car)
    (h : c2 ∈ (tick s inp).1.cars) :
    ∃ (c0 : Car) (ph : Phase) (fr : Option Car),
      (c0 ∈ s.cars ∨ c0 = Car.init inp.spawnDir inp.spawnSpeed s.nextId) ∧
      c2 = Car.update (controlCar ph fr c0) := by
  obtain ⟨cs, ni, ph, hcs, -, hcars⟩ := tick_cars_shape s inp
  rw [hcars] at h
  have h1 : c2 ∈ (apply_controls_to_cars ph cs).map Car.update := List.mem_of_mem_filter h
  obtain ⟨c1, hc1, hc2⟩ := List.mem_map.mp h1
  unfold apply_controls_to_cars at hc1
  obtain ⟨c0, hc0, hc1e⟩ := List.mem_map.mp hc1
  refine ⟨c0, ph, frontCar cs c0, ?_, by rw [← hc2, ← hc1e]⟩
  rcases hcs with ⟨hcse, -⟩ | ⟨hcse, -⟩
  · left
    rw [hcse] at hc0
    exact hc0
  · rw [hcse] at hc0
    rcases List.mem_append.mp hc0 with h | h
    · exact Or.inl h
    · right
      rcases List.mem_singleton.mp h with h
      exact h

/-- `nextId` never decreases across a tick. -/
theorem tick_nextId_mono (s : SimState) (inp : TickInput) :
    s.nextId ≤ (tick s inp).1.nextId := by
  obtain ⟨cs, ni, ph, hcs, hni, -⟩ := tick_cars_shape s inp
  rcases hcs with ⟨-, h⟩ | ⟨-, h⟩
  · rw [hni, h]
  · rw [hni, h]
    exact Nat.le_succ _

end ATC

namespace ATC

theorem geomOK_of_fields (c c2 : Car)
    (hd : c2.direction = c.direction) (hx : c2.x = c.x) (hy : c2.y = c.y)
    (hvx : c2.vx = c.vx) (hvy : c2.vy = c.vy) (h : c.geomOK) : c2.geomOK := by
  unfold Car.geomOK at h ⊢
  rw [hd]
  cases hdir : c.direction <;> rw [hdir] at h <;>
    obtain ⟨h1, h2⟩ := h <;> simp only [] <;>
    first
      | exact ⟨by rw [hx, h1], by rw [hvx, h2]⟩
      | exact ⟨by rw [hy, h1], by rw [hvy, h2]⟩

theorem geomOK_controlCar (p : Phase) (f : Option Car) (c : Car) (h : c.geomOK) :
    (controlCar p f c).geomOK := by
  obtain ⟨hx, hy, hvx, hvy, -, hd⟩ := controlCar_pos p f c
  exact geomOK_of_fields c _ hd hx hy hvx hvy h

theorem geomOK_update (c : Car) (h : c.geomOK) : (Car.update c).geomOK := by
  obtain ⟨i, dir, sp, x, y, vx, vy, st, pi⟩ := c
  cases dir <;> cases st <;> simp_all [Car.update, Car.geomOK]

theorem apply_controls_ids (p : Phase) (cars : List Car) :
    (apply_controls_to_cars p cars).map Car.id = cars.map Car.id := by
  unfold apply_controls_to_cars
  rw [List.map_map]
  exact List.map_congr_left fun c _ => controlCar_id p (frontCar cars c) c

theorem map_update_ids (cars : List Car) :
    (cars.map Car.update).map Car.id = cars.map Car.id := by
  rw [List.map_map]
  exact List.map_congr_left fun c _ => update_id c

end ATC

namespace ATC

theorem queue_length_pos_mem (cars : List Car) (d : Dir) (h : queue_length cars d ≠ 0) :
    ∃ c ∈ cars, c.stopped = false ∧ c.direction = d ∧ c.distSqToCenter < 120 ^ 2 := by
  unfold queue_length at h
  obtain ⟨c, hc⟩ := List.exists_mem_of_length_pos (Nat.pos_of_ne_zero h)
  have hm := List.mem_filter.mp hc
  refine ⟨c, hm.1, ?_⟩
  have hp := hm.2
  simp only [Bool.and_eq_true, Bool.not_eq_true', decide_eq_true_eq] at hp
  exact ⟨hp.1.1, hp.1.2, hp.2⟩

/-- The heart of claim C10: right after the `last_car_pass` update loop,
the gap-out condition cannot be the fired branch.  If any green approach
still reports a positive `queue_length`, some car is moving, its distance
to the center is positive (lane geometry), so the loop has just written
`now` into `last_car_pass[phase_index]` and the measured gap is zero. -/
theorem switch_no_gapOut (sp : Nat) (s : SimState)
    (hgeom : ∀ c ∈ s.cars, Car.geomOK c)
    (hidx : s.phase_index < PHASES.length)
    (hlen : s.last_car_pass.length = PHASES.length) :
    switchBranch sp (gapUpdateStep s) ≠ some SwitchBranch.gapOut := by
  intro hcontra
  unfold switchBranch at hcontra
  by_cases hg : MIN_GREEN ≤ (gapUpdateStep s).phase_elapsed
  · rw [if_pos hg] at hcontra
    by_cases hq :
        (phaseAt sp).green.all (fun d => queue_length (gapUpdateStep s).cars d == 0) = true
    · rw [if_pos hq] at hcontra
      exact SwitchBranch.noConfusion (Option.some.inj hcontra)
    · rw [if_neg hq] at hcontra
      rw [List.all_eq_true] at hq
      push_neg at hq
      obtain ⟨d, hd, hdq⟩ := hq
      have hnz : queue_length (gapUpdateStep s).cars d ≠ 0 := by
        intro h0
        apply hdq
        rw [h0]
        rfl
      rw [(gapUpdateStep_proj s).1] at hnz
      obtain ⟨c, hc, hst, -, -⟩ := queue_length_pos_mem s.cars d hnz
      have hany : s.cars.any (fun c => decide (0 < c.distSqToCenter) && !c.stopped) = true := by
        rw [List.any_eq_true]
        refine ⟨c, hc, ?_⟩
        rw [Bool.and_eq_true, decide_eq_true_eq, Bool.not_eq_true']
        exact ⟨geomOK_distSq_pos c (hgeom c hc), hst⟩
      have hgap : gapUpdateStep s =
          { s with last_car_pass := s.last_car_pass.set s.phase_index s.accum_seconds } := by
        unfold gapUpdateStep
        rw [if_pos hany]
      have hlast : (gapUpdateStep s).last_car_pass =
          s.last_car_pass.set s.phase_index s.accum_seconds := by
        rw [hgap]
      have hget : (s.last_car_pass.set s.phase_index s.accum_seconds).getD s.phase_index 0 =
          s.accum_seconds := by
        have hlt : s.phase_index < s.last_car_pass.length := by
          rw [hlen]
          exact hidx
        rw [List.getD_eq_getElem?_getD, List.getElem?_set_self hlt]
        rfl
      have hcond : ¬ (GAP_THRESHOLD ≤ (gapUpdateStep s).accum_seconds -
          (gapUpdateStep s).last_car_pass.getD (gapUpdateStep s).phase_index 0) := by
        rw [(gapUpdateStep_proj s).2.2.2.2.2.1, hlast, (gapUpdateStep_proj s).2.2.2.1, hget]
        norm_num [GAP_THRESHOLD]
      rw [if_neg hcond] at hcontra
      by_cases hm : MAX_GREEN ≤ (gapUpdateStep s).phase_elapsed
      · rw [if_pos hm] at hcontra
        exact SwitchBranch.noConfusion (Option.some.inj hcontra)
      · rw [if_neg hm] at hcontra
        exact Option.noConfusion hcontra
  · rw [if_neg hg] at hcontra
    exact Option.noConfusion hcontra

end ATC

namespace ATC

theorem tick_index_lt (s : SimState) (inp : TickInput)
    (h : s.phase_index < PHASES.length) :
    (tick s inp).1.phase_index < PHASES.length := by
  rw [tick_eq]
  rw [(motionStep_proj _).2.2.1]
  set s2 := eventStep (clockStep s inp.dt) inp.manualAdv with hs2
  have h2 : s2.phase_index < PHASES.length := by
    rw [hs2]
    exact eventStep_index_lt inp.manualAdv (clockStep s inp.dt) h
  by_cases hsp : (4/5 : ℚ) < s2.car_spawn_timer
  · rw [spawnBlock_active s.phase_index s2 inp hsp]
    set s3 := gapUpdateStep { spawnCarStep s2 inp with car_spawn_timer := 0 } with hs3
    set b := switchBranch s.phase_index s3 with hb
    rw [(recomputeStep_proj _).2.2.2.1]
    apply transitionStep_index
    rw [hs3, (gapUpdateStep_proj _).2.2.2.1]
    have : ({ spawnCarStep s2 inp with car_spawn_timer := 0 } : SimState).phase_index =
        (spawnCarStep s2 inp).phase_index := rfl
    rw [this, (spawnCarStep_proj s2 inp).2.1]
    exact h2
  · rw [spawnBlock_inactive s.phase_index s2 inp hsp]
    exact h2

/-- One-tick preservation of the inductive invariant. -/
theorem good_tick (s : SimState) (inp : TickInput) (h : GoodState s) :
    GoodState (tick s inp).1 := by
  obtain ⟨hgeom, hidx, hlen, hbound, hnodup, hdlo, hdhi⟩ := h
  obtain ⟨cs, ni, ph, hcs, hni, hcars⟩ := tick_cars_shape s inp
  have hcs_geom : ∀ c ∈ cs, Car.geomOK c := by
    rcases hcs with ⟨hc, -⟩ | ⟨hc, -⟩
    · rw [hc]
      exact hgeom
    · rw [hc]
      intro c hmem
      rcases List.mem_append.mp hmem with hm | hm
      · exact hgeom c hm
      · rw [List.mem_singleton.mp hm]
        exact init_geomOK _ _ _
  have hcs_bound : ∀ c ∈ cs, c.id < ni := by
    rcases hcs with ⟨hc, hn⟩ | ⟨hc, hn⟩
    · rw [hc, hn]
      exact hbound
    · rw [hc, hn]
      intro c hmem
      rcases List.mem_append.mp hmem with hm | hm
      · exact Nat.lt_succ_of_lt (hbound c hm)
      · rw [List.mem_singleton.mp hm, init_id]
        exact Nat.lt_succ_self _
  have hcs_nodup : (cs.map Car.id).Nodup := by
    rcases hcs with ⟨hc, -⟩ | ⟨hc, -⟩
    · rw [hc]
      exact hnodup
    · rw [hc, List.map_append]
      rw [List.nodup_append]
      refine ⟨hnodup, by simp [init_id], ?_⟩
      intro a ha hb
      simp only [List.map_singleton, init_id, List.mem_singleton] at hb
      obtain ⟨c0, hc0, hc0e⟩ := List.mem_map.mp ha
      rw [hb] at hc0e
      exact absurd hc0e (Nat.ne_of_lt (hbound c0 hc0))
  refine ⟨?_, tick_index_lt s inp hidx, ?_, ?_, ?_, ?_⟩
  · intro c2 hmem
    obtain ⟨c0, ph2, fr, hc0, he⟩ := tick_cars_mem s inp c2 hmem
    have hg0 : Car.geomOK c0 := by
      rcases hc0 with hm | hm
      · exact hgeom c0 hm
      · rw [hm]
        exact init_geomOK _ _ _
    rw [he]
    exact geomOK_update _ (geomOK_controlCar _ _ _ hg0)
  · rw [tick_last_len, hlen]
  · intro c2 hmem
    rw [hcars] at hmem
    have h1 := List.mem_of_mem_filter hmem
    obtain ⟨c1, hc1, hc2⟩ := List.mem_map.mp h1
    unfold apply_controls_to_cars at hc1
    obtain ⟨c0, hc0, hc1e⟩ := List.mem_map.mp hc1
    rw [hni, ← hc2, update_id, ← hc1e, controlCar_id]
    exact hcs_bound c0 hc0
  · have hsub : List.Sublist ((tick s inp).1.cars.map Car.id) (cs.map Car.id) := by
      rw [hcars]
      have h1 : List.Sublist
          ((((apply_controls_to_cars ph cs).map Car.update).filter
              (fun c => !outOfBounds c)).map Car.id)
          (((apply_controls_to_cars ph cs).map Car.update).map Car.id) :=
        List.Sublist.map Car.id (List.filter_sublist _)
      rw [map_update_ids, apply_controls_ids] at h1
      exact h1
    exact List.Nodup.sublist hsub hcs_nodup
  · rcases tick_duration_cases s inp with hd | ⟨p, q, hd⟩
    · rw [hd]
      exact ⟨hdlo, hdhi⟩
    · rw [hd]
      exact ⟨compute_phase_duration_ge p q, compute_phase_duration_le p q⟩

theorem good_init : GoodState initState := by
  refine ⟨?_, ?_, ?_, ?_, ?_, ?_, ?_⟩
  · intro c hc
    exact absurd hc (List.not_mem_nil c)
  · decide
  · rfl
  · intro c hc
    exact absurd hc (List.not_mem_nil c)
  · exact List.nodup_nil
  · exact compute_phase_duration_ge _ _
  · exact compute_phase_duration_le _ _

/-- Every reachable state satisfies the inductive invariant. -/
theorem reach_good (s : SimState) (h : Reach s) : GoodState s := by
  induction h with
  | init => exact good_init
  | step s inp _ ih => exact good_tick s inp ih

end ATC

namespace ATC

/-- One-tick core of claim C1: if every car bearing a given (already
allocated) id has cleared, then after any tick every car bearing that
id is still cleared and is not stopped. -/
theorem tick_id_passed (s : SimState) (inp : TickInput) (X : Nat)
    (hX : X < s.nextId)
    (hI : ∀ c ∈ s.cars, c.id = X → c.passed_intersection = true) :
    X < (tick s inp).1.nextId ∧
    ∀ c2 ∈ (tick s inp).1.cars, c2.id = X →
      c2.passed_intersection = true ∧ c2.stopped = false := by
  constructor
  · exact lt_of_lt_of_le hX (tick_nextId_mono s inp)
  · intro c2 hmem hid
    obtain ⟨c0, ph, fr, hc0, he⟩ := tick_cars_mem s inp c2 hmem
    have hid0 : c0.id = X := by
      rw [he, update_id, controlCar_id] at hid
      exact hid
    have hp0 : c0.passed_intersection = true := by
      rcases hc0 with hm | hm
      · exact hI c0 hm hid0
      · exfalso
        rw [hm, init_id] at hid0
        exact absurd hid0.symm (ne_of_lt hX)
    rw [he, controlCar_of_passed ph fr c0 hp0]
    have hu := update_flags { c0 with stopped := false }
    refine ⟨?_, hu.1⟩
    rw [hu.2.1]
    exact hp0

theorem runTicks_id_passed (L : List TickInput) (hL : L ≠ []) :
    ∀ (s : SimState) (X : Nat), X < s.nextId →
      (∀ c ∈ s.cars, c.id = X → c.passed_intersection = true) →
      ∀ c2 ∈ (runTicks s L).cars, c2.id = X →
        c2.passed_intersection = true ∧ c2.stopped = false := by
  induction L with
  | nil => exact absurd rfl hL
  | cons i rest ih =>
    intro s X hX hI
    cases rest with
    | nil => exact (tick_id_passed s i X hX hI).2
    | cons j rest2 =>
      have h1 := tick_id_passed s i X hX hI
      exact ih (List.cons_ne_nil j rest2) (tick s i).1 X h1.1
        (fun c hm hid => (h1.2 c hm hid).1)

end ATC

namespace ATC

/-! ### Claim theorems -/

/-- C1 (confirmed): once a vehicle's `passed_intersection` flag is true,
after any nonempty sequence of later ticks the vehicle (identified by
its id, which `reach_good` shows is unique among live cars in every
reachable state) still has the flag set and has been assigned
`stopped = false` by the car-following controller — it is never
`Stopped` again, regardless of the then-active phase. -/
theorem c1_cleared_never_restopped (s : SimState) (c : Car)
    (hmem : c ∈ s.cars) (hcleared : c.passed_intersection = true)
    (hfresh : c.id < s.nextId)
    (hunique : ∀ c2 ∈ s.cars, c2.id = c.id → c2 = c)
    (L : List TickInput) (hL : L ≠ [])
    (c2 : Car) (hc2 : c2 ∈ (runTicks s L).cars) (hid : c2.id = c.id) :
    c2.passed_intersection = true ∧ c2.stopped = false := by
  have hI : ∀ c0 ∈ s.cars, c0.id = c.id → c0.passed_intersection = true := by
    intro c0 hm h0
    rw [hunique c0 hm h0]
    exact hcleared
  exact runTicks_id_passed L hL s c.id hfresh hI c2 hc2 hid

theorem c1_cleared_never_restopped_witness :
    c1wCar ∈ c1wState.cars ∧ c1wCar.passed_intersection = true ∧
    c1wCar.id < c1wState.nextId ∧
    (∀ c2 ∈ c1wState.cars, c2.id = c1wCar.id → c2 = c1wCar) ∧
    c1wPost ∈ (runTicks c1wState [c1wInput]).cars ∧
    c1wPost.passed_intersection = true ∧ c1wPost.stopped = false := by
  have hmem : c1wCar ∈ c1wState.cars := by simp [c1wState]
  have huniq : ∀ c2 ∈ c1wState.cars, c2.id = c1wCar.id → c2 = c1wCar := by
    simp [c1wState]
  have hpost : c1wPost ∈ (runTicks c1wState [c1wInput]).cars := by
    show c1wPost ∈ (tick c1wState c1wInput).1.cars
    norm_num [tick, clockStep, eventStep, Function.iterate_zero, id, spawnBlock, spawnCarStep,
    gapUpdateStep, switchBranch, transitionStep, recomputeStep, motionStep,
    apply_controls_to_cars, controlCar, frontCar, laneCars, stableSortLane, insertBehind, laneLE,
    nearStop, crossedCenter, queueCond, measure_queues, queue_length, compute_phase_duration,
    outOfBounds, Car.update, Car.distSqToCenter, Car.init, initState, phaseAt, PHASES,
    MIN_GREEN, MAX_GREEN, GAP_THRESHOLD, PER_CAR_ADDITIONAL, BASE_GREEN,
    CENTER_X, CENTER_Y, LANE_WIDTH, WINDOW_W, WINDOW_H, STOP_DIST,
    north_stop_y, south_stop_y, west_stop_x, east_stop_x, max_def, min_def,
      c1wState, c1wCar, c1wInput, c1wPost]
  have happ := c1_cleared_never_restopped c1wState c1wCar hmem rfl (by decide) huniq
    [c1wInput] (by simp) c1wPost hpost rfl
  exact ⟨hmem, rfl, by decide, huniq, hpost, happ.1, happ.2⟩

/-- C2 counterexample: two vehicles in the same lane, the trailing one
10 px (< 25) behind its leader, yet after the controller runs the
trailing vehicle is NOT `Stopped` — both have already cleared the
intersection, and the `passed_intersection` branch of the controller
skips the car-following rule entirely. -/
theorem c2_trailing_cleared_not_stopped :
    frontCar c2xCars c2xRear = some c2xFront ∧
    (c2xRear.x - c2xFront.x) ^ 2 + (c2xRear.y - c2xFront.y) ^ 2 < 25 ^ 2 ∧
    c2xRear.stopped = false ∧
    (apply_controls_to_cars (phaseAt 0) c2xCars).map Car.stopped = [false, false] := by
  refine ⟨?_, by norm_num [c2xRear, c2xFront], rfl, ?_⟩ <;>
    norm_num [tick, clockStep, eventStep, Function.iterate_zero, id, spawnBlock, spawnCarStep,
    gapUpdateStep, switchBranch, transitionStep, recomputeStep, motionStep,
    apply_controls_to_cars, controlCar, frontCar, laneCars, stableSortLane, insertBehind, laneLE,
    nearStop, crossedCenter, queueCond, measure_queues, queue_length, compute_phase_duration,
    outOfBounds, Car.update, Car.distSqToCenter, Car.init, initState, phaseAt, PHASES,
    MIN_GREEN, MAX_GREEN, GAP_THRESHOLD, PER_CAR_ADDITIONAL, BASE_GREEN,
    CENTER_X, CENTER_Y, LANE_WIDTH, WINDOW_W, WINDOW_H, STOP_DIST,
    north_stop_y, south_stop_y, west_stop_x, east_stop_x, max_def, min_def,
      c2xCars, c2xRear, c2xFront]

/-- C2 (corrected): the car-following rule as amended — for two vehicles
in the same lane with the trailing one within 25 units of its leader,
PROVIDED the trailing vehicle has not yet cleared the intersection
(`passed_intersection = false`), the controller sets the trailing
vehicle to `Stopped`, regardless of signal color. -/
theorem c2_follow_stop (p : Phase) (cars : List Car) (i : Nat) (c f c2 : Car)
    (hc : cars[i]? = some c)
    (hpass : c.passed_intersection = false)
    (hf : frontCar cars c = some f)
    (hd : (c.x - f.x) ^ 2 + (c.y - f.y) ^ 2 < 25 ^ 2)
    (hc2 : (apply_controls_to_cars p cars)[i]? = some c2) :
    c2.stopped = true := by
  unfold apply_controls_to_cars at hc2
  rw [List.getElem?_map, hc] at hc2
  have he : c2 = controlCar p (frontCar cars c) c := (Option.some.inj hc2).symm
  rw [he, hf]
  simp only [controlCar, hpass, Bool.false_eq_true, if_false, if_pos hd]

theorem c2_follow_stop_witness :
    c2wCars[1]? = some c2wRear ∧ c2wRear.passed_intersection = false ∧
    frontCar c2wCars c2wRear = some c2wFront ∧
    (c2wRear.x - c2wFront.x) ^ 2 + (c2wRear.y - c2wFront.y) ^ 2 < 25 ^ 2 ∧
    (apply_controls_to_cars (phaseAt 0) c2wCars)[1]? = some { c2wRear with stopped := true } ∧
    ({ c2wRear with stopped := true } : Car).stopped = true := by
  have h1 : c2wCars[1]? = some c2wRear := by simp [c2wCars]
  have h3 : frontCar c2wCars c2wRear = some c2wFront := by
    norm_num [tick, clockStep, eventStep, Function.iterate_zero, id, spawnBlock, spawnCarStep,
    gapUpdateStep, switchBranch, transitionStep, recomputeStep, motionStep,
    apply_controls_to_cars, controlCar, frontCar, laneCars, stableSortLane, insertBehind, laneLE,
    nearStop, crossedCenter, queueCond, measure_queues, queue_length, compute_phase_duration,
    outOfBounds, Car.update, Car.distSqToCenter, Car.init, initState, phaseAt, PHASES,
    MIN_GREEN, MAX_GREEN, GAP_THRESHOLD, PER_CAR_ADDITIONAL, BASE_GREEN,
    CENTER_X, CENTER_Y, LANE_WIDTH, WINDOW_W, WINDOW_H, STOP_DIST,
    north_stop_y, south_stop_y, west_stop_x, east_stop_x, max_def, min_def,
      c2wCars, c2wRear, c2wFront]
  have h4 : (c2wRear.x - c2wFront.x) ^ 2 + (c2wRear.y - c2wFront.y) ^ 2 < 25 ^ 2 := by
    norm_num [c2wRear, c2wFront]
  have h5 : (apply_controls_to_cars (phaseAt 0) c2wCars)[1]? =
      some { c2wRear with stopped := true } := by
    norm_num [tick, clockStep, eventStep, Function.iterate_zero, id, spawnBlock, spawnCarStep,
    gapUpdateStep, switchBranch, transitionStep, recomputeStep, motionStep,
    apply_controls_to_cars, controlCar, frontCar, laneCars, stableSortLane, insertBehind, laneLE,
    nearStop, crossedCenter, queueCond, measure_queues, queue_length, compute_phase_duration,
    outOfBounds, Car.update, Car.distSqToCenter, Car.init, initState, phaseAt, PHASES,
    MIN_GREEN, MAX_GREEN, GAP_THRESHOLD, PER_CAR_ADDITIONAL, BASE_GREEN,
    CENTER_X, CENTER_Y, LANE_WIDTH, WINDOW_W, WINDOW_H, STOP_DIST,
    north_stop_y, south_stop_y, west_stop_x, east_stop_x, max_def, min_def,
      c2wCars, c2wRear, c2wFront]
  exact ⟨h1, rfl, h3, h4, h5,
    c2_follow_stop (phaseAt 0) c2wCars 1 c2wRear c2wFront { c2wRear with stopped := true }
      h1 rfl h3 h4 h5⟩

/-- C3 (confirmed): in every reachable state — after initialization and
after every tick — `MIN_GREEN ≤ current_phase_duration ≤ MAX_GREEN`,
with the effective `MIN_GREEN = 10` and `MAX_GREEN = 60`. -/
theorem c3_duration_bounds (s : SimState) (h : Reach s) :
    MIN_GREEN ≤ s.current_phase_duration ∧ s.current_phase_duration ≤ MAX_GREEN :=
  ⟨(reach_good s h).2.2.2.2.2.1, (reach_good s h).2.2.2.2.2.2⟩

theorem c3_duration_bounds_witness :
    MIN_GREEN ≤ initState.current_phase_duration ∧
    initState.current_phase_duration ≤ MAX_GREEN :=
  c3_duration_bounds initState Reach.init

end ATC

namespace ATC

theorem foldl_demand_eq (q : Dir → Nat) (l : List Dir) (a : Nat) :
    l.foldl (fun acc d => acc + q d) a = a + (l.map q).sum := by
  induction l generalizing a with
  | nil => simp
  | cons d t ih =>
    simp only [List.foldl_cons, List.map_cons, List.sum_cons, ih]
    omega

/-- C4 (confirmed): `compute_phase_duration` implements
`clamp(BASE_GREEN + PER_CAR_ADDITIONAL * demand, MIN_GREEN, MAX_GREEN)`
with `demand` the sum of queue counts over the phase's green
approaches; with the configured constants, demand 0 gives 10, demand 5
gives 27.5, and demand 20 clamps to 60. -/
theorem c4_duration_formula :
    (∀ (p : Phase) (q : Dir → Nat),
      compute_phase_duration p q =
        clampDuration ((p.green.map (fun d => ((q d : ℕ) : ℚ))).sum)) ∧
    compute_phase_duration (phaseAt 0) (fun _ => 0) = 10 ∧
    compute_phase_duration (phaseAt 0) (fun d => if d = Dir.N then 5 else 0) = 55 / 2 ∧
    compute_phase_duration (phaseAt 0) (fun d => if d = Dir.N then 20 else 0) = 60 := by
  refine ⟨?_, ?_, ?_, ?_⟩
  · intro p q
    have hd : ((p.green.foldl (fun a d => a + q d) 0 : ℕ) : ℚ) =
        (p.green.map (fun d => ((q d : ℕ) : ℚ))).sum := by
      rw [foldl_demand_eq q p.green 0, Nat.zero_add, Nat.cast_list_sum, List.map_map]
      rfl
    simp only [compute_phase_duration, clampDuration, hd]
  · norm_num [compute_phase_duration, phaseAt, PHASES, MIN_GREEN, MAX_GREEN,
      BASE_GREEN, PER_CAR_ADDITIONAL, max_def, min_def]
  · norm_num [compute_phase_duration, phaseAt, PHASES, MIN_GREEN, MAX_GREEN,
      BASE_GREEN, PER_CAR_ADDITIONAL, max_def, min_def]
  · norm_num [compute_phase_duration, phaseAt, PHASES, MIN_GREEN, MAX_GREEN,
      BASE_GREEN, PER_CAR_ADDITIONAL, max_def, min_def]

/-- C5 (confirmed): a tick without a manual advance can change the
phase only when the (incremented) elapsed time has reached
`MIN_GREEN`; the RIGHT-arrow handler is the only way to change phase
earlier. -/
theorem c5_no_early_auto_transition (s : SimState) (inp : TickInput)
    (hman : inp.manualAdv = 0)
    (hch : (tick s inp).1.phase_index ≠ s.phase_index) :
    MIN_GREEN ≤ s.phase_elapsed + inp.dt :=
  (tick_auto_transition s inp hman hch).2

theorem c5_no_early_auto_transition_witness :
    c5wInput.manualAdv = 0 ∧
    (tick c5wState c5wInput).1.phase_index ≠ c5wState.phase_index ∧
    MIN_GREEN ≤ c5wState.phase_elapsed + c5wInput.dt := by
  have hch : (tick c5wState c5wInput).1.phase_index ≠ c5wState.phase_index := by
    norm_num [tick, clockStep, eventStep, Function.iterate_zero, id, spawnBlock, spawnCarStep,
    gapUpdateStep, switchBranch, transitionStep, recomputeStep, motionStep,
    apply_controls_to_cars, controlCar, frontCar, laneCars, stableSortLane, insertBehind, laneLE,
    nearStop, crossedCenter, queueCond, measure_queues, queue_length, compute_phase_duration,
    outOfBounds, Car.update, Car.distSqToCenter, Car.init, initState, phaseAt, PHASES,
    MIN_GREEN, MAX_GREEN, GAP_THRESHOLD, PER_CAR_ADDITIONAL, BASE_GREEN,
    CENTER_X, CENTER_Y, LANE_WIDTH, WINDOW_W, WINDOW_H, STOP_DIST,
    north_stop_y, south_stop_y, west_stop_x, east_stop_x, max_def, min_def,
      c5wState, c5wInput]
  exact ⟨rfl, hch, c5_no_early_auto_transition c5wState c5wInput rfl hch⟩

/-- C6 counterexample: a tick where `phase_elapsed` is far past
`MIN_GREEN` and the queue-exhausted condition holds (no cars at all),
yet the guard is not evaluated and no transition happens, because
`car_spawn_timer + dt ≤ 0.8` keeps the whole switch block from
running. -/
theorem c6_guard_skipped :
    MIN_GREEN ≤ c6xState.phase_elapsed + c6xInput.dt ∧
    (tick c6xState c6xInput).2.guardEvaluated = false ∧
    (tick c6xState c6xInput).1.phase_index = c6xState.phase_index := by
  refine ⟨by norm_num [c6xState, c6xInput, MIN_GREEN, initState], ?_, ?_⟩ <;>
    norm_num [tick, clockStep, eventStep, Function.iterate_zero, id, spawnBlock, spawnCarStep,
    gapUpdateStep, switchBranch, transitionStep, recomputeStep, motionStep,
    apply_controls_to_cars, controlCar, frontCar, laneCars, stableSortLane, insertBehind, laneLE,
    nearStop, crossedCenter, queueCond, measure_queues, queue_length, compute_phase_duration,
    outOfBounds, Car.update, Car.distSqToCenter, Car.init, initState, phaseAt, PHASES,
    MIN_GREEN, MAX_GREEN, GAP_THRESHOLD, PER_CAR_ADDITIONAL, BASE_GREEN,
    CENTER_X, CENTER_Y, LANE_WIDTH, WINDOW_W, WINDOW_H, STOP_DIST,
    north_stop_y, south_stop_y, west_stop_x, east_stop_x, max_def, min_def,
      c6xState, c6xInput]

/-- C6 (corrected): the transition guard (the three switch conditions)
is reached — once — on exactly the ticks that enter the spawn-timer
block (`car_spawn_timer + dt > 0.8`) with no manual advance and with
`phase_elapsed + dt ≥ MIN_GREEN`; on all other ticks it is not
evaluated at all. -/
theorem c6_guard_evaluation_iff (s : SimState) (inp : TickInput) :
    (tick s inp).2.guardEvaluated = true ↔
      ((4/5 : ℚ) < s.car_spawn_timer + inp.dt ∧ inp.manualAdv = 0 ∧
       MIN_GREEN ≤ s.phase_elapsed + inp.dt) :=
  tick_guard_iff s inp

/-- C7 counterexample: a spawn-block tick with no manual advance and no
phase transition on which `current_phase_duration` nevertheless
changes (10 → 13.5), because lines 393-394 recompute it on every
spawn-block tick. -/
theorem c7_duration_changes_without_transition :
    c7xInput.manualAdv = 0 ∧
    (tick c7xState c7xInput).2.branchFired = none ∧
    (tick c7xState c7xInput).1.phase_index = c7xState.phase_index ∧
    (tick c7xState c7xInput).1.current_phase_duration ≠ c7xState.current_phase_duration := by
  refine ⟨rfl, ?_, ?_, ?_⟩ <;>
    norm_num [tick, clockStep, eventStep, Function.iterate_zero, id, spawnBlock, spawnCarStep,
    gapUpdateStep, switchBranch, transitionStep, recomputeStep, motionStep,
    apply_controls_to_cars, controlCar, frontCar, laneCars, stableSortLane, insertBehind, laneLE,
    nearStop, crossedCenter, queueCond, measure_queues, queue_length, compute_phase_duration,
    outOfBounds, Car.update, Car.distSqToCenter, Car.init, initState, phaseAt, PHASES,
    MIN_GREEN, MAX_GREEN, GAP_THRESHOLD, PER_CAR_ADDITIONAL, BASE_GREEN,
    CENTER_X, CENTER_Y, LANE_WIDTH, WINDOW_W, WINDOW_H, STOP_DIST,
    north_stop_y, south_stop_y, west_stop_x, east_stop_x, max_def, min_def,
      c7xState, c7xCar, c7xInput]

/-- C7 (corrected): `current_phase_duration` is unchanged on every tick
that has no manual advance and does not enter the spawn block; on
spawn-block ticks it is recomputed from a fresh queue snapshot for the
then-current phase even when no transition and no manual advance
occurred. -/
theorem c7_duration_frame (s : SimState) (inp : TickInput) (hman : inp.manualAdv = 0) :
    (s.car_spawn_timer + inp.dt ≤ 4/5 →
      (tick s inp).1.current_phase_duration = s.current_phase_duration) ∧
    (inp.spawnRoll = false → (4/5 : ℚ) < s.car_spawn_timer + inp.dt →
      (tick s inp).1.current_phase_duration =
        compute_phase_duration (phaseAt (tick s inp).1.phase_index)
          (measure_queues s.cars)) :=
  ⟨fun h => tick_duration_frame s inp hman h,
   fun h1 h2 => tick_duration_recompute s inp hman h1 h2⟩

theorem c7_duration_frame_witness :
    c7wInput.manualAdv = 0 ∧ c7wState.car_spawn_timer + c7wInput.dt ≤ 4/5 ∧
    (tick c7wState c7wInput).1.current_phase_duration =
      c7wState.current_phase_duration := by
  have h : c7wState.car_spawn_timer + c7wInput.dt ≤ 4/5 := by
    norm_num [c7wState, c7wInput, initState]
  exact ⟨rfl, h, (c7_duration_frame c7wState c7wInput rfl).1 h⟩

/-- C8 counterexample: on a tick with Δt = 0.5 s, a moving car advances
by its full per-frame velocity (2.5 px), not by velocity × Δt
(1.25 px): `Car.update` performs fixed per-frame steps with no Δt
factor. -/
theorem c8_no_dt_scaling :
    c8xCar.stopped = false ∧ c8xInput.dt = 1/2 ∧
    (tick c8xState c8xInput).1.cars = [c8xPost] ∧
    c8xPost.y = c8xCar.y + c8xCar.vy ∧
    c8xPost.y ≠ c8xCar.y + c8xCar.vy * c8xInput.dt := by
  refine ⟨rfl, rfl, ?_, by norm_num [c8xPost, c8xCar],
    by norm_num [c8xPost, c8xCar, c8xInput]⟩
  norm_num [tick, clockStep, eventStep, Function.iterate_zero, id, spawnBlock, spawnCarStep,
    gapUpdateStep, switchBranch, transitionStep, recomputeStep, motionStep,
    apply_controls_to_cars, controlCar, frontCar, laneCars, stableSortLane, insertBehind, laneLE,
    nearStop, crossedCenter, queueCond, measure_queues, queue_length, compute_phase_duration,
    outOfBounds, Car.update, Car.distSqToCenter, Car.init, initState, phaseAt, PHASES,
    MIN_GREEN, MAX_GREEN, GAP_THRESHOLD, PER_CAR_ADDITIONAL, BASE_GREEN,
    CENTER_X, CENTER_Y, LANE_WIDTH, WINDOW_W, WINDOW_H, STOP_DIST,
    north_stop_y, south_stop_y, west_stop_x, east_stop_x, max_def, min_def,
    c8xState, c8xCar, c8xInput, c8xPost]

/-- C8 (corrected): each tick a vehicle whose `stopped` flag is false
advances its position by exactly its per-frame velocity vector
`(vx, vy)` — independent of Δt — while a stopped vehicle's position is
unchanged; neither the motion step nor the controller ever modifies
`vx`, `vy` or `speed`, which are fixed at spawn. -/
theorem c8_per_frame_motion (c : Car) (p : Phase) (f : Option Car) (d : Dir)
    (sp : ℚ) (n : Nat) :
    Car.update c = (if c.stopped then c else { c with x := c.x + c.vx, y := c.y + c.vy }) ∧
    (Car.update c).vx = c.vx ∧ (Car.update c).vy = c.vy ∧ (Car.update c).speed = c.speed ∧
    (controlCar p f c).x = c.x ∧ (controlCar p f c).y = c.y ∧
    (controlCar p f c).vx = c.vx ∧ (controlCar p f c).vy = c.vy ∧
    (controlCar p f c).speed = c.speed ∧
    (Car.init d sp n).speed = sp := by
  obtain ⟨-, -, -, u4, u5, u6⟩ := update_flags c
  obtain ⟨p1, p2, p3, p4, p5, -⟩ := controlCar_pos p f c
  refine ⟨rfl, u4, u5, u6, p1, p2, p3, p4, p5, ?_⟩
  cases d <;> rfl

/-- C9 counterexample: a tick invoked with Δt = -1 is NOT rejected:
the time accumulators are mutated (both `accum_seconds` and
`phase_elapsed` decrease), contradicting "no state mutation". -/
theorem c9_negative_dt_not_rejected :
    c9xInput.dt < 0 ∧
    (tick initState c9xInput).1.accum_seconds ≠ initState.accum_seconds ∧
    (tick initState c9xInput).1.phase_elapsed ≠ initState.phase_elapsed := by
  refine ⟨by norm_num [c9xInput], ?_, ?_⟩ <;>
    norm_num [tick, clockStep, eventStep, Function.iterate_zero, id, spawnBlock, spawnCarStep,
    gapUpdateStep, switchBranch, transitionStep, recomputeStep, motionStep,
    apply_controls_to_cars, controlCar, frontCar, laneCars, stableSortLane, insertBehind, laneLE,
    nearStop, crossedCenter, queueCond, measure_queues, queue_length, compute_phase_duration,
    outOfBounds, Car.update, Car.distSqToCenter, Car.init, initState, phaseAt, PHASES,
    MIN_GREEN, MAX_GREEN, GAP_THRESHOLD, PER_CAR_ADDITIONAL, BASE_GREEN,
    CENTER_X, CENTER_Y, LANE_WIDTH, WINDOW_W, WINDOW_H, STOP_DIST,
    north_stop_y, south_stop_y, west_stop_x, east_stop_x, max_def, min_def,
      c9xInput]

/-- C9 (corrected): the loop performs no validation of `dt` whatsoever —
every tick, negative `dt` included, adds `dt` to the clock accumulator
unconditionally; there is no rejection path. -/
theorem c9_dt_applied_unconditionally (s : SimState) (inp : TickInput) :
    (tick s inp).1.accum_seconds = s.accum_seconds + inp.dt := by
  rw [tick_eq, (motionStep_proj _).2.2.2.2.1, spawnBlock_accum, (eventStep_proj _ _).2.2.2.1]
  rfl

/-- C10 (confirmed): in every reachable state, the gap-out branch
(condition 2) never fires: whenever the switch conditions are
evaluated, either some un-stopped car exists — its distance to the
center is positive by lane geometry, so the preceding loop has just
set `last_car_pass[phase_index]` to `now`, making the measured gap
0 < GAP_THRESHOLD — or every car is stopped, in which case
`queue_length` is 0 for every green approach and the queue-exhausted
condition fires first. -/
theorem c10_gap_out_never_fires (s : SimState) (h : Reach s) (inp : TickInput) :
    (tick s inp).2.branchFired ≠ some SwitchBranch.gapOut := by
  obtain ⟨hgeom, hidx, hlen, -, -, -, -⟩ := reach_good s h
  rw [tick_eq]
  set s2 := eventStep (clockStep s inp.dt) inp.manualAdv with hs2
  have hcars2 : s2.cars = s.cars := by
    rw [hs2, (eventStep_proj _ _).1]
    rfl
  by_cases hsp : (4/5 : ℚ) < s2.car_spawn_timer
  · rw [spawnBlock_active s.phase_index s2 inp hsp]
    set s2mid : SimState := { spawnCarStep s2 inp with car_spawn_timer := 0 } with hs2mid
    show switchBranch s.phase_index (gapUpdateStep s2mid) ≠ some SwitchBranch.gapOut
    apply switch_no_gapOut
    · intro c hc
      have hcc : s2mid.cars = (spawnCarStep s2 inp).cars := rfl
      rw [hcc] at hc
      rcases spawnCarStep_cars s2 inp with ⟨h1, -⟩ | ⟨h1, -⟩
      · rw [h1, hcars2] at hc
        exact hgeom c hc
      · rw [h1, hcars2] at hc
        rcases List.mem_append.mp hc with hm | hm
        · exact hgeom c hm
        · rw [List.mem_singleton.mp hm]
          exact init_geomOK _ _ _
    · have hcc : s2mid.phase_index = (spawnCarStep s2 inp).phase_index := rfl
      rw [hcc, (spawnCarStep_proj s2 inp).2.1, hs2]
      exact eventStep_index_lt _ _ hidx
    · have hcc : s2mid.last_car_pass = (spawnCarStep s2 inp).last_car_pass := rfl
      rw [hcc, (spawnCarStep_proj s2 inp).2.2.2.2.1, hs2, (eventStep_proj _ _).2.2.2.2]
      show s.last_car_pass.length = PHASES.length
      exact hlen
  · rw [spawnBlock_inactive s.phase_index s2 inp hsp]
    simp

theorem c10_gap_out_never_fires_witness :
    (tick initState c10wInput).2.branchFired ≠ some SwitchBranch.gapOut :=
  c10_gap_out_never_fires initState Reach.init c10wInput

end ATC
